import Mathlib

/-!
Verification development for the PiAssistant gateway (TypeScript sources).

The definitions below are a shallow embedding of the gateway code:
  - `src/gateway/src/broadcast.ts` (BroadcastManager)
  - the Pi RPC client (`PiRpcClient`, `src/unnamed/part_005`)
  - the session manager (`SessionManager`, `src/unnamed/part_003`)
  - the session watcher (`SessionWatcher`, `src/unnamed/part_008`)

JavaScript values that flow through these functions (tool arguments, tool
results, lock-file JSON) are modelled by the `Js` type below; JS string
operations are modelled over `List Char` (code points) by structural
recursion, so every definition is executable and kernel-reducible.
-/

namespace PiAssistant

mutual

/-- Model of a JavaScript/JSON value as it appears after `JSON.parse` or as a
structured argument object.  `undefined` models the JS value `undefined` (absent
properties read as `undefined`, i.e. `getField` returns `none`). -/
inductive Js where
  | nullV : Js
  | undefined : Js
  | bool (b : Bool) : Js
  | num (n : Int) : Js
  | str (s : String) : Js
  | arr (elems : JsList) : Js
  | obj (fields : JsFields) : Js
  deriving DecidableEq

inductive JsList where
  | nil : JsList
  | cons (head : Js) (tail : JsList) : JsList
  deriving DecidableEq

inductive JsFields where
  | nil : JsFields
  | cons (key : String) (val : Js) (tail : JsFields) : JsFields
  deriving DecidableEq

end

/-- First-match field lookup (JS object keys are unique at runtime). -/
def JsFields.lookup : JsFields → String → Option Js
  | .nil, _ => none
  | .cons k v t, key => if k = key then some v else t.lookup key

/-- Property access `j.k`: only objects carry named fields; on every other
value (including arrays, where named properties are absent in our model) the
result is `undefined`, i.e. `none`. -/
def Js.getField : Js → String → Option Js
  | .obj fs, k => fs.lookup k
  | _, _ => none

/-- JS truthiness of a value. -/
def Js.truthy : Js → Bool
  | .nullV => false
  | .undefined => false
  | .bool b => b
  | .num n => n != 0
  | .str s => s != ""
  | .arr _ => true
  | .obj _ => true

/-- `typeof v === "object" && v !== null` (arrays included, null excluded). -/
def Js.isObjectLike : Js → Bool
  | .arr _ => true
  | .obj _ => true
  | _ => false

/-! ### String utilities modelling the JS string operations used by the code -/

/-- Lower-case hex digit, as produced by `JSON.stringify` escapes. -/
def hexDigit (n : Nat) : Char :=
  if n < 10 then Char.ofNat (48 + n) else Char.ofNat (87 + n)

/-- `JSON.stringify` escape of a single character inside a string literal. -/
def escCharJs (c : Char) : List Char :=
  if c = '"' then ['\\', '"']
  else if c = '\\' then ['\\', '\\']
  else if c = '\n' then ['\\', 'n']
  else if c = '\r' then ['\\', 'r']
  else if c = '\t' then ['\\', 't']
  else if c = '\x08' then ['\\', 'b']
  else if c = '\x0c' then ['\\', 'f']
  else if c.toNat < 32 then ['\\', 'u', '0', '0', hexDigit (c.toNat / 16), hexDigit (c.toNat % 16)]
  else [c]

/-- `JSON.stringify` rendering of a string literal, quotes included. -/
def quoteJs (s : String) : String :=
  ⟨'"' :: (s.data.map escCharJs).flatten ++ ['"']⟩

/-- `array.join(sep)`. -/
def joinWith (sep : String) : List String → String
  | [] => ""
  | [x] => x
  | x :: rest => x ++ sep ++ joinWith sep rest

/-- Join rendered items with commas (compact `JSON.stringify`). -/
def joinWithComma (xs : List String) : String := joinWith "," xs

/-- Join with newlines (`array.join("\n")`). -/
def joinWithNl (xs : List String) : String := joinWith "\n" xs

mutual

/-- Compact `JSON.stringify(v)`.  Returns `none` exactly when JS returns the
value `undefined` (top-level `undefined`). -/
def stringifyJs : Js → Option String
  | .undefined => none
  | .nullV => some "null"
  | .bool b => some (if b then "true" else "false")
  | .num n => some (toString n)
  | .str s => some (quoteJs s)
  | .arr xs => some ("[" ++ joinWithComma (stringifyArr xs) ++ "]")
  | .obj fs => some ("\x7b" ++ joinWithComma (stringifyObj fs) ++ "\x7d")

/-- Array elements: `undefined` elements render as `null`. -/
def stringifyArr : JsList → List String
  | .nil => []
  | .cons h t =>
    (match stringifyJs h with
     | some s => s
     | none => "null") :: stringifyArr t

/-- Object fields: fields whose value is `undefined` are omitted. -/
def stringifyObj : JsFields → List String
  | .nil => []
  | .cons k v t =>
    match stringifyJs v with
    | some s => (quoteJs k ++ ":" ++ s) :: stringifyObj t
    | none => stringifyObj t

end

/-- `n` spaces, for pretty `JSON.stringify(v, null, 2)` indentation. -/
def padSpaces (n : Nat) : String := ⟨List.replicate n ' '⟩

mutual

/-- Pretty `JSON.stringify(v, null, 2)` at nesting depth `d`. -/
def prettyJs (d : Nat) : Js → Option String
  | .undefined => none
  | .nullV => some "null"
  | .bool b => some (if b then "true" else "false")
  | .num n => some (toString n)
  | .str s => some (quoteJs s)
  | .arr xs =>
    match prettyArr d xs with
    | [] => some "[]"
    | items =>
      some ("[\n" ++ joinWith ",\n" (items.map (fun it => padSpaces (2 * (d + 1)) ++ it)) ++ "\n" ++ padSpaces (2 * d) ++ "]")
  | .obj fs =>
    match prettyObj d fs with
    | [] => some "\x7b\x7d"
    | items =>
      some ("\x7b\n" ++ joinWith ",\n" (items.map (fun it => padSpaces (2 * (d + 1)) ++ it)) ++ "\n" ++ padSpaces (2 * d) ++ "\x7d")

/-- Pretty-printed array elements at depth `d`. -/
def prettyArr (d : Nat) : JsList → List String
  | .nil => []
  | .cons h t =>
    (match prettyJs (d + 1) h with
     | some s => s
     | none => "null") :: prettyArr d t

/-- Pretty-printed object fields at depth `d` (`"key": value`). -/
def prettyObj (d : Nat) : JsFields → List String
  | .nil => []
  | .cons k v t =>
    match prettyJs (d + 1) v with
    | some s => (quoteJs k ++ ": " ++ s) :: prettyObj d t
    | none => prettyObj d t

end

/-- `JSON.stringify(v, null, 2)` as used for fallback tool-result rendering
(the argument there is never `undefined`, so `getD` is unreachable padding). -/
def prettyStringify (v : Js) : String := (prettyJs 0 v).getD "undefined"

/-- `s.length` — in our code-point model, the length of the character list. -/
def strLen (s : String) : Nat := s.data.length

/-- `s.slice(0, n)`. -/
def strTake (s : String) (n : Nat) : String := ⟨s.data.take n⟩

/-- `s.slice(n)`. -/
def strDrop (s : String) (n : Nat) : String := ⟨s.data.drop n⟩

/-- Whitespace as removed by JS `String.prototype.trim` (the common cases). -/
def jsWs (c : Char) : Bool :=
  c = ' ' || c = '\t' || c = '\n' || c = '\r' || c = '\x0b' || c = '\x0c' || c = '\u00A0'

/-- JS `s.trim()`. -/
def trimJs (s : String) : String :=
  ⟨((s.data.dropWhile jsWs).reverse.dropWhile jsWs).reverse⟩

/-- `text.replace(/\r\n/g, "\n")`, fuel-driven so it reduces in the kernel. -/
def replaceCrNlGo : Nat → List Char → List Char
  | 0, rest => rest
  | _ + 1, [] => []
  | fuel + 1, '\r' :: '\n' :: rest => '\n' :: replaceCrNlGo fuel rest
  | fuel + 1, c :: rest => c :: replaceCrNlGo fuel rest

/-- `text.replace(/\r\n/g, "\n")`. -/
def replaceCrNl (s : String) : String := ⟨replaceCrNlGo s.data.length s.data⟩

/-- `s.split("\n")` on character lists. -/
def splitOnNlGo : List Char → List Char → List String
  | [], acc => [⟨acc.reverse⟩]
  | c :: rest, acc =>
    if c = '\n' then ⟨acc.reverse⟩ :: splitOnNlGo rest [] else splitOnNlGo rest (c :: acc)

/-- `s.split("\n")`. -/
def splitOnNl (s : String) : List String := splitOnNlGo s.data []

/-- `s.lastIndexOf("\n")`: `none` models the JS result `-1`. -/
def lastIndexOfNl : List Char → Option Nat
  | [] => none
  | c :: rest =>
    match lastIndexOfNl rest with
    | some i => some (i + 1)
    | none => if c = '\n' then some 0 else none

/-! ### BroadcastManager helpers (`src/gateway/src/broadcast.ts`) -/

/-- The local `extractCommand` of `BroadcastManager.formatToolLabel`:
a string-valued, non-empty `command` field of an object argument. -/
def extractCommand (value : Js) : Option String :=
  if value.isObjectLike then
    match value.getField "command" with
    | some (.str c) => if c = "" then none else some c
    | _ => none
  else none

/-- `typeof a.k === "string" && a.k` — the field `k` when it is a non-empty
string, as used by the `pathLike`/`patternLike`/`urlLike`/`queryLike` chains. -/
def strFieldNonempty (j : Js) (k : String) : Option String :=
  match j.getField k with
  | some (.str s) => if s = "" then none else some s
  | _ => none

/-- The length-capped JSON fallback of `formatToolLabel`
(`max = 140`, `json.slice(0, max - 1) + "…"`). -/
def jsonFallbackLabel (toolName : String) (args : Js) : String :=
  match stringifyJs args with
  | some json => toolName ++ " " ++ (if strLen json > 140 then strTake json 139 ++ "…" else json)
  | none => toolName

/-- `BroadcastManager.formatToolLabel`, translated line by line from
`broadcast.ts` lines 333–372. -/
def formatToolLabel (toolName : String) (args : Js) : String :=
  if toolName = "bash" then
    match extractCommand args with
    | some cmd => "$ " ++ cmd
    | none => "bash"
  else if !args.isObjectLike then toolName
  else
    match strFieldNonempty args "path" <|> strFieldNonempty args "filePath" <|> strFieldNonempty args "filename" with
    | some p => toolName ++ " " ++ p
    | none =>
      match strFieldNonempty args "pattern" <|> strFieldNonempty args "glob" with
      | some p => toolName ++ " " ++ p
      | none =>
        match strFieldNonempty args "url" with
        | some u => toolName ++ " " ++ u
        | none =>
          match strFieldNonempty args "query" with
          | some q => toolName ++ " " ++ q
          | none => jsonFallbackLabel toolName args

/-- Modelled from the spec (amended wording for the label algorithm): the
`command` field is consulted only for the tool named `bash`; for every other
tool the argument fields `path`, `filePath`, `filename`, `pattern`, `glob`,
`url`, `query` are recognized in that priority order, with the length-capped
JSON dump as fallback. -/
def firstStringArg (args : Js) : List String → Option String
  | [] => none
  | k :: rest =>
    match strFieldNonempty args k with
    | some v => some v
    | none => firstStringArg args rest

/-- The amended specification of the label computation (see `firstStringArg`). -/
def formatToolLabelSpec (toolName : String) (args : Js) : String :=
  if toolName = "bash" then
    match strFieldNonempty args "command" with
    | some c => "$ " ++ c
    | none => "bash"
  else if !args.isObjectLike then toolName
  else
    match firstStringArg args ["path", "filePath", "filename", "pattern", "glob", "url", "query"] with
    | some v => toolName ++ " " ++ v
    | none => jsonFallbackLabel toolName args

/-- `xs.every(x => typeof x === "string")`. -/
def allStringsJsList : JsList → Bool
  | .nil => true
  | .cons (.str _) t => allStringsJsList t
  | .cons _ _ => false

/-- The strings of a JS array (used after `allStringsJsList` holds). -/
def jsListStrings : JsList → List String
  | .nil => []
  | .cons (.str s) t => s :: jsListStrings t
  | .cons _ t => jsListStrings t

/-- `content.map(item => item && typeof item === "object" ? item.text : null)
.filter(typeof string)`. -/
def contentTextParts : JsList → List String
  | .nil => []
  | .cons item t =>
    match (if item.isObjectLike then item.getField "text" else none) with
    | some (.str s) => s :: contentTextParts t
    | _ => contentTextParts t

/-- `r.paths` / `r.matches`: an array of strings joined by newlines. -/
def pathsJoin (fs : JsFields) (key : String) : Option String :=
  match fs.lookup key with
  | some (.arr xs) => if allStringsJsList xs then some (joinWithNl (jsListStrings xs)) else none
  | _ => none

/-- `r.content`: the string `text` parts, when there is at least one. -/
def contentJoin (fs : JsFields) : Option String :=
  match fs.lookup "content" with
  | some (.arr xs) =>
    match contentTextParts xs with
    | [] => none
    | parts => some (joinWithNl parts)
  | _ => none

/-- The object branch of `BroadcastManager.extractToolResultText`:
`text`, `output`, `stdout`(+`stderr`), `paths`, `matches`, `content[].text`,
then pretty-printed JSON, in the order of the source. -/
def extractFromObj (fs : JsFields) : String :=
  match fs.lookup "text" with
  | some (.str s) => s
  | _ =>
    match fs.lookup "output" with
    | some (.str s) => s
    | _ =>
      match fs.lookup "stdout" with
      | some (.str out) =>
        (match fs.lookup "stderr" with
         | some (.str e) => if e = "" then out else out ++ "\n" ++ e
         | _ => out)
      | _ =>
        match pathsJoin fs "paths" with
        | some s => s
        | none =>
          match pathsJoin fs "matches" with
          | some s => s
          | none =>
            match contentJoin fs with
            | some s => s
            | none => prettyStringify (.obj fs)

/-- `BroadcastManager.extractToolResultText` (`broadcast.ts` lines 374–407). -/
def extractToolResultText : Js → String
  | .str s => s
  | .nullV => ""
  | .undefined => ""
  | .arr xs => if allStringsJsList xs then joinWithNl (jsListStrings xs) else prettyStringify (.arr xs)
  | .obj fs => extractFromObj fs
  | .bool b => if b then "true" else "false"
  | .num n => toString n

/-- `BroadcastManager.truncateToolOutput`: normalize line endings, trim, cap
at 30 lines and 1800 characters with a `… (truncated)` marker. -/
def truncateToolOutput (text : String) : String × Bool :=
  let normalized := trimJs (replaceCrNl text)
  if normalized = "" then ("", false)
  else
    let lines := splitOnNl normalized
    let outAndT :=
      if lines.length > 30 then (joinWithNl (lines.take 30) ++ "\n… (truncated)", true)
      else (normalized, false)
    let out := outAndT.1
    if strLen out > 1800 then
      let truncated := strTake out 1800
      let cutPoint :=
        match lastIndexOfNl truncated.data with
        | some i => if i > 900 then i else 1800
        | none => 1800
      (strTake out cutPoint ++ "\n… (truncated)", true)
    else outAndT

/-- An `image` broadcast payload (`source` plus optional alt text). -/
structure ImageRef where
  source : String
  alt : Option String
  deriving DecidableEq

/-- The loop body of `extractImagesFromToolResult` over `content` items. -/
def imagesFromContent : JsList → List ImageRef
  | .nil => []
  | .cons item t =>
    if item.isObjectLike then
      match item.getField "type" with
      | some (.str ty) =>
        if ty = "image" then
          let mimeType := match item.getField "mimeType" with
            | some (.str m) => m
            | _ => "image/png"
          match item.getField "data" with
          | some (.str d) =>
            if d = "" then imagesFromContent t
            else { source := "data:" ++ mimeType ++ ";base64," ++ d,
                   alt := some "Generated image" } :: imagesFromContent t
          | _ => imagesFromContent t
        else imagesFromContent t
      | _ => imagesFromContent t
    else imagesFromContent t

/-- `BroadcastManager.extractImagesFromToolResult` (lines 436–460). -/
def extractImagesFromToolResult (result : Js) : List ImageRef :=
  if !result.truthy || !result.isObjectLike then []
  else
    match result.getField "content" with
    | some (.arr xs) => imagesFromContent xs
    | _ => []

/-- Split a character list at the first occurrence of `delim`
(the delimiter itself is dropped); `none` when `delim` does not occur. -/
def findSplit (delim : Char) : List Char → Option (List Char × List Char)
  | [] => none
  | c :: rest =>
    if c = delim then some ([], rest)
    else
      match findSplit delim rest with
      | some (pre, post) => some (c :: pre, post)
      | none => none

/-- One attempted match of the regex `!\[([^\]]*)\]\(([^)]+)\)` at the head of
the list: returns `(alt, source, remainder)` on success. -/
def matchImage : List Char → Option (List Char × List Char × List Char)
  | '!' :: '[' :: r1 =>
    (match findSplit ']' r1 with
     | some (alt, r2) =>
       (match r2 with
        | '(' :: r3 =>
          (match findSplit ')' r3 with
           | some (src, r4) => if src = [] then none else some (alt, src, r4)
           | none => none)
        | _ => none)
     | none => none)
  | _ => none

/-- Global regex replacement scan: removes every markdown-image match and
collects the raw `(alt, source)` captures in order. -/
def scanImages : Nat → List Char → List Char × List (List Char × List Char)
  | 0, rest => (rest, [])
  | _ + 1, [] => ([], [])
  | fuel + 1, c :: rest =>
    match matchImage (c :: rest) with
    | some (alt, src, r4) =>
      let p := scanImages fuel r4
      (p.1, (alt, src) :: p.2)
    | none =>
      let p := scanImages fuel rest
      (c :: p.1, p.2)

/-- `.replace(/\n{3,}/g, "\n\n")`: collapse runs of three or more newlines. -/
def collapseNlGo : Nat → List Char → List Char
  | 0, rest => rest
  | _ + 1, [] => []
  | fuel + 1, c :: rest =>
    if c = '\n' then
      let n := 1 + (rest.takeWhile (fun x => x = '\n')).length
      let rest2 := rest.dropWhile (fun x => x = '\n')
      (if n ≥ 3 then ['\n', '\n'] else List.replicate n '\n') ++ collapseNlGo fuel rest2
    else c :: collapseNlGo fuel rest

/-- Result of `BroadcastManager.extractMarkdownImages`. -/
structure MarkdownExtraction where
  textOnly : String
  images : List ImageRef
  deriving DecidableEq

/-- `BroadcastManager.extractMarkdownImages` (lines 462–478): strip markdown
image syntax into `image` payloads, collapse excess newlines and trim. -/
def extractMarkdownImages (text : String) : MarkdownExtraction :=
  let p := scanImages text.data.length text.data
  let images := p.2.filterMap (fun q =>
    let cleanSource := trimJs ⟨q.2⟩
    if cleanSource = "" then none
    else
      let a := trimJs ⟨q.1⟩
      some { source := cleanSource, alt := if a = "" then none else some a })
  { textOnly := trimJs ⟨collapseNlGo p.1.length p.1⟩, images := images }

/-- Token usage as assembled by `extractTokenUsage` (integral token counts;
`cost` is `usage.cost?.total`). -/
structure TokenUsage where
  input : Int
  output : Int
  cacheRead : Int
  cacheWrite : Int
  total : Int
  cost : Option Int
  deriving DecidableEq

/-- `usage.k || 0` for numeric fields. -/
def numOrZero (o : Option Js) : Int :=
  match o with
  | some (.num n) => n
  | _ => 0

/-- The backwards search of `extractTokenUsage`: the input is the message
list already reversed, so the head is the last message. -/
def findUsageFromEnd : List Js → Option TokenUsage
  | [] => none
  | msg :: rest =>
    let isAssistant := match msg.getField "role" with
      | some (.str r) => r = "assistant"
      | _ => false
    match msg.getField "usage" with
    | some u =>
      if isAssistant && u.truthy then
        some
          { input := numOrZero (u.getField "input")
            output := numOrZero (u.getField "output")
            cacheRead := numOrZero (u.getField "cacheRead")
            cacheWrite := numOrZero (u.getField "cacheWrite")
            total := numOrZero (u.getField "input") + numOrZero (u.getField "output")
              + numOrZero (u.getField "cacheRead") + numOrZero (u.getField "cacheWrite")
            cost := match u.getField "cost" with
              | some c =>
                (match c.getField "total" with
                 | some (.num t) => some t
                 | _ => none)
              | none => none }
      else findUsageFromEnd rest
    | none => findUsageFromEnd rest

/-- `BroadcastManager.extractTokenUsage` (lines 480–529): `none` when the
`messages` payload is absent or not an array. -/
def extractTokenUsage : Option (List Js) → Option TokenUsage
  | none => none
  | some messages => findUsageFromEnd messages.reverse

/-! ### The per-turn event state machine of `setupPiListeners` -/

/-- Nested events of `message_update` (`types.ts`, `AssistantMessageEvent`). -/
inductive AssistantMessageEvent where
  | text_delta (delta : String)
  | text_done (text : String)
  | thinking_delta (delta : String)
  | thinking_done
  deriving DecidableEq

/-- Upstream events of the Pi subprocess as consumed by `setupPiListeners`
(`types.ts`, `PiEvent`); the `messages` payload of `agent_end` is optional,
matching the defensive cast in `extractTokenUsage`. -/
inductive PiEvent where
  | tool_execution_start (toolCallId : String) (toolName : String) (args : Js)
  | tool_execution_update (toolCallId : String) (toolName : String) (args : Js)
  | tool_execution_end (toolCallId : String) (toolName : String) (result : Js)
  | message_update (assistantMessageEvent : AssistantMessageEvent)
  | agent_end (messages : Option (List Js))
  | auto_compaction_start
  | auto_compaction_end
  deriving DecidableEq

/-- Messages broadcast to subscribers by `setupPiListeners`
(the relevant subset of `types-ws.ts`, `WSServerMessage`). -/
inductive WSServerMessage where
  | tool_start (toolCallId : String) (toolName : String) (args : Js) (label : String)
  | tool_output (toolCallId : String) (output : String) (truncated : Bool)
  | tool_end (toolCallId : String) (toolName : String)
  | image (source : String) (alt : Option String)
  | text_delta (content : String)
  | thinking_delta (content : String)
  | thinking_done (content : String)
  | done (finalText : String) (usage : Option TokenUsage)
  deriving DecidableEq

/-- The closure state of `setupPiListeners` (lines 190–196). -/
structure BroadcastState where
  currentText : String
  proseStartOffset : Nat
  insideTool : Bool
  currentThinking : String
  isThinking : Bool
  deriving DecidableEq

/-- The initial per-turn state (`""`, `0`, `false`, `""`, `false`). -/
def initialBroadcastState : BroadcastState :=
  { currentText := "", proseStartOffset := 0, insideTool := false,
    currentThinking := "", isThinking := false }

/-- `event.toolName || "tool"`. -/
def orTool (toolName : String) : String := if toolName = "" then "tool" else toolName

/-- One step of the `setupPiListeners` event handler (lines 198–330):
the new closure state and the broadcasts issued for this event, in order. -/
def stepEvent (s : BroadcastState) (e : PiEvent) : BroadcastState × List WSServerMessage :=
  match e with
  | .tool_execution_start id name args =>
    ({ s with insideTool := true },
     [.tool_start id (orTool name) args (formatToolLabel (orTool name) args)])
  | .tool_execution_end id name result =>
    let imgs := (extractImagesFromToolResult result).map (fun i => WSServerMessage.image i.source i.alt)
    let tr := truncateToolOutput (extractToolResultText result)
    ({ s with proseStartOffset := strLen s.currentText, insideTool := false },
     imgs ++ [.tool_output id tr.1 tr.2, .tool_end id (orTool name)])
  | .message_update me =>
    (match me with
     | .text_delta d =>
       ({ s with currentText := s.currentText ++ d },
        if s.insideTool then [] else [.text_delta d])
     | .text_done t => ({ s with currentText := t }, [])
     | .thinking_delta d =>
       ({ s with currentThinking := s.currentThinking ++ d, isThinking := true },
        [.thinking_delta d])
     | .thinking_done =>
       ({ s with isThinking := false, currentThinking := "" },
        [.thinking_done s.currentThinking]))
  | .agent_end messages =>
    let proseResponse :=
      if s.proseStartOffset > 0 then strDrop s.currentText s.proseStartOffset else s.currentText
    let ex := extractMarkdownImages proseResponse
    let imgs := ex.images.map (fun i => WSServerMessage.image i.source i.alt)
    ({ s with currentText := "", proseStartOffset := 0, insideTool := false },
     imgs ++ [.done ex.textOnly (extractTokenUsage messages)])
  | _ => (s, [])

/-- Deliver a sequence of upstream events to the listener, concatenating the
broadcasts in order. -/
def runBroadcast (s : BroadcastState) : List PiEvent → BroadcastState × List WSServerMessage
  | [] => (s, [])
  | e :: rest =>
    let p1 := stepEvent s e
    let p2 := runBroadcast p1.1 rest
    (p2.1, p1.2 ++ p2.2)

/-! ### Subscriber registry and `BroadcastManager.broadcast` (lines 17–47, 118–134) -/

/-- Outcome of one subscriber's `send(message)` call: a plain (non-promise)
return, a resolving promise, a rejecting promise (caught by the per-send
`.catch`), or a synchronous throw (not caught anywhere in `broadcast`). -/
inductive SendBehavior where
  | retUnit
  | resolveP
  | rejectP
  | throwSync
  deriving DecidableEq

/-- A registered subscriber (`types-ws.ts`, interface `Client`): stable id,
`isAvailable()` value, and the behavior of its `send`. -/
structure Client where
  id : String
  available : Bool
  send : SendBehavior
  deriving DecidableEq

/-- `excludeClientId && id === excludeClientId` (a falsy exclude id disables
the exclusion). -/
def excludedBy (ex : Option String) (id : String) : Bool :=
  match ex with
  | some e => e != "" && id == e
  | none => false

/-- `BroadcastManager.broadcast`: walk the registry in iteration order; skip
excluded and unavailable subscribers; a rejected promise is caught per
subscriber, but a synchronous throw aborts the loop.  Returns the ids whose
`send` was invoked and whether `broadcast` itself rejects. -/
def broadcastRun : List Client → Option String → List String × Bool
  | [], _ => ([], false)
  | c :: rest, ex =>
    if excludedBy ex c.id then broadcastRun rest ex
    else if !c.available then broadcastRun rest ex
    else
      match c.send with
      | .throwSync => ([c.id], true)
      | _ =>
        let p := broadcastRun rest ex
        (c.id :: p.1, p.2)

/-- `registerClient`: `Map.set(client.id, client)` — replaces in place when
the id exists (keeping iteration order), appends otherwise. -/
def registerClient (m : List Client) (c : Client) : List Client :=
  if m.any (fun x => x.id == c.id) then m.map (fun x => if x.id == c.id then c else x)
  else m ++ [c]

/-- `unregisterClient`: `Map.delete(clientId)`. -/
def unregisterClient (m : List Client) (clientId : String) : List Client :=
  m.filter (fun x => x.id != clientId)

/-- The keys of the registry. -/
def registryIds (m : List Client) : List String := m.map Client.id

/-! ### `PiRpcClient.sendAndWait` correlation lifecycle (`part_005` lines 372–407) -/

/-- Emitter events a pending `sendAndWait` promise can observe: a `response`
line, an `error` event, or the process `exit` event (which `sendAndWait`
installs no listener for). -/
inductive RpcEvent where
  | response (id : Option String) (success : Bool) (error : Option String)
  | errorEvt (message : String)
  | exitEvt (code : Option Int)
  deriving DecidableEq

/-- State of one correlated request's promise. -/
inductive PendingState where
  | pending (id : String)
  | resolved
  | rejected (message : String)
  deriving DecidableEq

/-- How one event settles (or fails to settle) a pending request: `onResponse`
ignores foreign ids, resolves on success and rejects on failure; `onError`
rejects; a process `exit` has no handler in `sendAndWait` and leaves the
promise untouched.  A settled promise stays settled (`cleanup`). -/
def settleStep (s : PendingState) (e : RpcEvent) : PendingState :=
  match s with
  | .pending id =>
    (match e with
     | .response rid success err =>
       if rid = some id then
         (if success then .resolved else .rejected (err.getD "Command failed"))
       else s
     | .errorEvt m => .rejected m
     | .exitEvt _ => s)
  | _ => s

/-- Feed a sequence of emitter events to the pending request. -/
def runRpcEvents (s : PendingState) : List RpcEvent → PendingState
  | [] => s
  | e :: rest => runRpcEvents (settleStep s e) rest

/-! ### `SessionManager` archival (`part_003` lines 52–78 and 98–134) -/

/-- A Pi RPC response as far as `sendAndWait` and `archiveAndStartNew`
inspect it. -/
structure PiResponse where
  success : Bool
  error : Option String
  deriving DecidableEq

/-- The `onResponse` settling of `sendAndWait`: an unsuccessful response is
turned into a rejection carrying `response.error ?? "Command failed"`. -/
def sendAndWaitSettle (r : PiResponse) : Except String PiResponse :=
  if r.success then .ok r else .error (r.error.getD "Command failed")

/-- Return value of `SessionManager.archiveAndStartNew`. -/
structure ArchiveResult where
  archived : Option String
  error : Option String
  deriving DecidableEq

/-- `SessionManager.archiveAndStartNew`, with the effectful steps factored
out: `copyResult` is `none` when `copyFile` succeeds and `some message` when
it throws; `resp` is the Pi response to the `new_session` command, delivered
through `sendAndWaitSettle` (so an unsuccessful response arrives as a
rejection and lands in the outer `catch`). -/
def archiveAndStartNew (copyResult : Option String) (archivePath : String)
    (resp : PiResponse) : ArchiveResult :=
  match copyResult with
  | some m => { archived := none, error := some m }
  | none =>
    match sendAndWaitSettle resp with
    | .error m => { archived := none, error := some m }
    | .ok r =>
      if !r.success then
        { archived := some archivePath, error := some (r.error.getD "Failed to start new session") }
      else { archived := some archivePath, error := none }

/-- `new Date().toISOString().replace(/[:.]/g, "-").slice(0, 19)` — the
timestamp baked into archive file names (second resolution). -/
def jsTimestamp (iso : String) : String :=
  ⟨(iso.data.map (fun c => if c = ':' || c = '.' then '-' else c)).take 19⟩

/-- The characters after the last `/`. -/
def lastComponentGo : List Char → List Char → List Char
  | [], acc => acc.reverse
  | c :: rest, acc => if c = '/' then lastComponentGo rest [] else lastComponentGo rest (c :: acc)

/-- Node `basename(path, ".jsonl")`: last path component with a trailing
`.jsonl` stripped (unless the component is exactly the extension). -/
def basenameJsonl (p : String) : String :=
  let base := lastComponentGo p.data []
  let ext := ".jsonl".data
  if ext.isSuffixOf base && base != ext then ⟨base.take (base.length - ext.length)⟩ else ⟨base⟩

/-- The archive file name produced by `SessionManager.archiveBeforeCompaction`
for a given session path and a given value of `new Date().toISOString()`. -/
def archiveNamePreCompact (sessionPath iso : String) : String :=
  basenameJsonl sessionPath ++ "_pre-compact_" ++ jsTimestamp iso ++ ".jsonl"

/-! ### `SessionWatcher` lock handling (`part_008` lines 55–111) -/

/-- Outcome of the zero-effect signal probe `process.kill(pid, 0)`. -/
inductive KillOutcome where
  | ok
  | err (code : String)
  deriving DecidableEq

/-- `SessionWatcher.isPidAlive`: the probe succeeding, or failing with
`EPERM` (process exists but is owned by another user), means alive. -/
def isPidAlive (probe : Int → KillOutcome) (pid : Int) : Bool :=
  match probe pid with
  | .ok => true
  | .err c => c == "EPERM"

/-- What reading and parsing the lock file yielded: `readFailed` covers a
missing or unreadable file (`readFile` throws), `invalidJson` a `JSON.parse`
throw; otherwise the parsed JS value. -/
inductive LockRead where
  | readFailed
  | invalidJson
  | parsed (lock : Js)
  deriving DecidableEq

/-- The alive check at the end of `getActiveLock`: a live pid returns the
lock, a dead pid deletes the stale marker (second component `true`) and
returns null. -/
def checkAlive (lock : Js) (pid : Int) (probe : Int → KillOutcome) : Option Js × Bool :=
  if isPidAlive probe pid then (some lock, false) else (none, true)

/-- `SessionWatcher.getActiveLock` (lines 55–76): result is the valid lock
(or `none`) together with whether the stale marker file was deleted.  The
whole body is wrapped in `try/catch`, so every failure path returns `none`;
a truthy non-string `session` field makes node's `resolve` throw, which the
`catch` also converts to `none`. -/
def getActiveLock (read : LockRead) (resolvedSessionPath : String)
    (resolvePath : String → String) (probe : Int → KillOutcome) : Option Js × Bool :=
  match read with
  | .readFailed => (none, false)
  | .invalidJson => (none, false)
  | .parsed lock =>
    match lock.getField "pid" with
    | some (Js.num pid) =>
      if pid == 0 then (none, false)
      else
        (match lock.getField "session" with
         | some (Js.str s) =>
           if s == "" then checkAlive lock pid probe
           else if resolvePath s ≠ resolvedSessionPath then (none, false)
           else checkAlive lock pid probe
         | some v => if v.truthy then (none, false) else checkAlive lock pid probe
         | none => checkAlive lock pid probe)
    | _ => (none, false)

/-- The status reported by `SessionWatcher.checkStatus`. -/
inductive TuiStatus where
  | active
  | noneStatus
  deriving DecidableEq

/-- `SessionWatcher.checkStatus`: `"active"` iff `getActiveLock` returned a
lock; the deletion side effect is carried through. -/
def checkStatus (read : LockRead) (resolvedSessionPath : String)
    (resolvePath : String → String) (probe : Int → KillOutcome) : TuiStatus × Bool :=
  let p := getActiveLock read resolvedSessionPath resolvePath probe
  ((if p.1.isSome then .active else .noneStatus), p.2)

/-! ## Helper lemmas -/

/-- Appending strings appends their character data. -/
theorem strData_append (a b : String) : (a ++ b).data = a.data ++ b.data := rfl

/-- Strings with equal character data are equal. -/
theorem strExt {a b : String} (h : a.data = b.data) : a = b := by
  cases a
  cases b
  exact congrArg String.mk h

/-- The `extractCommand` helper agrees with the generic non-empty-string
field accessor on the `command` key. -/
theorem extractCommand_eq_strField (args : Js) :
    extractCommand args = strFieldNonempty args "command" := by
  cases args <;> rfl

/-- The ids delivered to by `broadcast` form a sublist of the registry keys. -/
theorem broadcastRun_sublist (m : List Client) (ex : Option String) :
    (broadcastRun m ex).1.Sublist (registryIds m) := by
  induction m with
  | nil => exact List.Sublist.refl _
  | cons c rest ih =>
    unfold broadcastRun registryIds
    cases hex : excludedBy ex c.id with
    | true =>
      simp only [hex, if_true]
      exact ih.cons c.id
    | false =>
      cases hav : c.available with
      | false =>
        simp only [hex, hav, Bool.not_false, if_false, if_true]
        exact ih.cons c.id
      | true =>
        cases hsend : c.send with
        | throwSync =>
          simp only [hex, hav, hsend, Bool.not_true, if_false, if_true]
          exact (List.nil_sublist _).cons₂ c.id
        | retUnit =>
          simp only [hex, hav, hsend, Bool.not_true, if_false, if_true]
          exact ih.cons₂ c.id
        | resolveP =>
          simp only [hex, hav, hsend, Bool.not_true, if_false, if_true]
          exact ih.cons₂ c.id
        | rejectP =>
          simp only [hex, hav, hsend, Bool.not_true, if_false, if_true]
          exact ih.cons₂ c.id

/-- `Map.set` with an existing key leaves the key sequence unchanged. -/
theorem registryIds_registerClient_existing (m : List Client) (c : Client)
    (hex : m.any (fun x => x.id == c.id) = true) :
    registryIds (registerClient m c) = registryIds m := by
  unfold registerClient registryIds
  rw [if_pos hex, List.map_map]
  refine List.map_congr_left (fun x _ => ?_)
  by_cases hb : x.id = c.id
  · simp [Function.comp, hb]
  · simp [Function.comp, hb]

/-! ## Claims -/

/-- C1: for the event sequence `tool_execution_start{a, bash, command:"ls -la"}`,
`tool_execution_end{a, result:{stdout:"file1\nfile2"}}`, `message_update`
`text_delta{"Done."}`, `agent_end`, delivered to the Broadcast Hub in its
initial per-turn state, the hub broadcasts exactly: `tool_start` with label
`$ ls -la`, `tool_output` with output `file1\nfile2`, `tool_end`,
`text_delta` with content `Done.`, and `done` with finalText `Done.`. -/
theorem scenario_bash_ls_broadcast_sequence :
    runBroadcast initialBroadcastState
      [ .tool_execution_start "a" "bash" (.obj (.cons "command" (.str "ls -la") .nil)),
        .tool_execution_end "a" "bash" (.obj (.cons "stdout" (.str "file1\nfile2") .nil)),
        .message_update (.text_delta "Done."),
        .agent_end none ]
      = (initialBroadcastState,
         [ .tool_start "a" "bash" (.obj (.cons "command" (.str "ls -la") .nil)) "$ ls -la",
           .tool_output "a" "file1\nfile2" false,
           .tool_end "a" "bash",
           .text_delta "Done.",
           .done "Done." none ]) := rfl

/-- C2 counterexample: with interleaved tool invocations the tool-active flag
is cleared by ANY `tool_execution_end`, not only the matching one.  In the
sequence start "a", start "b", end "a", delta "x", end "b", the delta arrives
after `tool_execution_start` of call "b" and before its matching
`tool_execution_end`, yet it IS broadcast as a `text_delta` — refuting the
claim as stated for this sequence. -/
theorem interleaved_tool_delta_is_broadcast :
    (runBroadcast initialBroadcastState
      [ .tool_execution_start "a" "t1" .undefined,
        .tool_execution_start "b" "t2" .undefined,
        .tool_execution_end "a" "t1" .undefined,
        .message_update (.text_delta "x"),
        .tool_execution_end "b" "t2" .undefined ]).2
      = [ .tool_start "a" "t1" .undefined "t1",
          .tool_start "b" "t2" .undefined "t2",
          .tool_output "a" "" false,
          .tool_end "a" "t1",
          .text_delta "x",
          .tool_output "b" "" false,
          .tool_end "b" "t2" ]
    ∧ WSServerMessage.text_delta "x" ∈
        (runBroadcast initialBroadcastState
          [ .tool_execution_start "a" "t1" .undefined,
            .tool_execution_start "b" "t2" .undefined,
            .tool_execution_end "a" "t1" .undefined,
            .message_update (.text_delta "x"),
            .tool_execution_end "b" "t2" .undefined ]).2 := by
  exact ⟨rfl, by decide⟩

/-- C2 (amended): a text delta arriving while the tool-active flag is set
(the flag is set by any `tool_execution_start` and cleared by any
`tool_execution_end`, not only the matching one) is appended to the running
prose buffer but not broadcast; a delta arriving while the flag is clear is
appended and broadcast verbatim. -/
theorem text_delta_buffered_and_gated_by_flag (s : BroadcastState) (d : String) :
    stepEvent s (.message_update (.text_delta d))
      = ({ s with currentText := s.currentText ++ d },
         if s.insideTool then [] else [WSServerMessage.text_delta d]) := rfl

/-- C3 counterexample: for a tool other than `bash` a string-valued `command`
field is NOT recognized: the label for tool `run` with args
`{command: "x"}` is the JSON fallback, not a command-derived label. -/
theorem command_field_ignored_for_non_bash :
    formatToolLabel "run" (.obj (.cons "command" (.str "x") .nil))
      = "run \x7b\"command\":\"x\"\x7d"
    ∧ formatToolLabel "run" (.obj (.cons "command" (.str "x") .nil)) ≠ "run x"
    ∧ formatToolLabel "run" (.obj (.cons "command" (.str "x") .nil)) ≠ "$ x" := by
  exact ⟨rfl, by decide, by decide⟩

/-- C3 (amended): the label recognizes a non-empty string `command` field only
for the tool named `bash` (label `$ command`, else `bash`); for every other
tool with object-like args it recognizes `path`/`filePath`/`filename`, then
`pattern`/`glob`, then `url`, then `query`, in that priority order, and
otherwise falls back to the tool name followed by a length-capped JSON dump
of the arguments (non-object args give just the tool name). -/
theorem formatToolLabel_eq_spec (toolName : String) (args : Js) :
    formatToolLabel toolName args = formatToolLabelSpec toolName args := by
  unfold formatToolLabel formatToolLabelSpec
  rw [extractCommand_eq_strField]
  simp only [firstStringArg]
  cases strFieldNonempty args "path" <;>
    cases strFieldNonempty args "filePath" <;>
      cases strFieldNonempty args "filename" <;>
        cases strFieldNonempty args "pattern" <;>
          cases strFieldNonempty args "glob" <;>
            cases strFieldNonempty args "url" <;>
              cases strFieldNonempty args "query" <;>
                rfl

/-- C4 counterexample: a subscriber whose `send` throws synchronously is not
isolated: the exception escapes the loop in `broadcast`, so a later available
subscriber never receives the message and `broadcast` itself rejects. -/
theorem syncThrow_blocks_later_subscribers :
    broadcastRun
      [ { id := "a", available := true, send := .throwSync },
        { id := "b", available := true, send := .resolveP } ] none
      = (["a"], true)
    ∧ "b" ∉ (broadcastRun
        [ { id := "a", available := true, send := .throwSync },
          { id := "b", available := true, send := .resolveP } ] none).1 := by
  exact ⟨rfl, by decide⟩

/-- C4 (amended): provided no subscriber's `send` throws synchronously,
`broadcast(message, excludeId?)` invokes `send` on exactly the non-excluded
subscribers whose `isAvailable()` is true (in registry order), and `broadcast`
itself never rejects; in particular an asynchronously rejecting `send` is
caught per subscriber and does not prevent delivery to any other subscriber. -/
theorem broadcast_delivers_all_when_no_syncThrow (clients : List Client) (ex : Option String)
    (h : ∀ c ∈ clients, c.send ≠ SendBehavior.throwSync) :
    broadcastRun clients ex
      = ((clients.filter (fun c => !excludedBy ex c.id && c.available)).map Client.id, false) := by
  induction clients with
  | nil => rfl
  | cons c rest ih =>
    have hc : c.send ≠ SendBehavior.throwSync := h c (List.mem_cons_self c rest)
    have ihr := ih (fun x hx => h x (List.mem_cons_of_mem c hx))
    unfold broadcastRun
    cases hex : excludedBy ex c.id with
    | true => simp [hex, ihr, List.filter_cons]
    | false =>
      cases hav : c.available with
      | false => simp [hex, hav, ihr, List.filter_cons]
      | true =>
        cases hsend : c.send with
        | throwSync => exact absurd hsend hc
        | retUnit => simp [hex, hav, hsend, ihr, List.filter_cons]
        | resolveP => simp [hex, hav, hsend, ihr, List.filter_cons]
        | rejectP => simp [hex, hav, hsend, ihr, List.filter_cons]

/-- Witness for C4 (amended): three subscribers, one unavailable, one whose
promise rejects; both available ones are delivered to and `broadcast`
resolves. -/
theorem broadcast_delivers_all_when_no_syncThrow_witness :
    broadcastRun
      [ { id := "a", available := true, send := .resolveP },
        { id := "x", available := false, send := .retUnit },
        { id := "b", available := true, send := .rejectP } ] (some "z")
      = (["a", "b"], false) :=
  (broadcast_delivers_all_when_no_syncThrow _ _ (by decide)).trans (by decide)

/-- C5 (code bug): `sendAndWait` installs listeners only for `response` and
`error` events; the subprocess `exit` event (emitted by the `exit` handler in
`PiRpcClient.start`) settles nothing, so a request outstanding at process
exit stays pending forever, while an `error` event does reject it. -/
theorem sendAndWait_left_pending_on_exit :
    runRpcEvents (.pending "cmd-1") [RpcEvent.exitEvt (some 0)] = PendingState.pending "cmd-1"
    ∧ runRpcEvents (.pending "cmd-1") [RpcEvent.errorEvt "spawn pi ENOENT"]
        = PendingState.rejected "spawn pi ENOENT" := ⟨rfl, rfl⟩

/-- C6 (code bug): when the archive copy succeeds but the `new_session` RPC is
unsuccessful, `sendAndWait` converts the unsuccessful response into a
rejection, so `archiveAndStartNew` lands in its catch-all and returns
`archived: null` — the created archive path is lost.  (The in-function branch
returning `{archived, error}` is unreachable.) -/
theorem archiveAndStartNew_drops_archive_path :
    archiveAndStartNew none "main_2025-01-01T00-00-00.jsonl"
      { success := false, error := some "boom" }
      = { archived := none, error := some "boom" }
    ∧ (archiveAndStartNew none "main_2025-01-01T00-00-00.jsonl"
        { success := false, error := some "boom" }).archived
      ≠ some "main_2025-01-01T00-00-00.jsonl" := by
  exact ⟨rfl, by decide⟩

/-- C7 counterexample: the archive timestamp is truncated to second
resolution, so two calls at distinct instants within the same second (here
800 ms apart) produce the SAME archive file name. -/
theorem archiveBeforeCompaction_name_collision :
    ("2025-06-01T10:20:30.123Z" : String) ≠ "2025-06-01T10:20:30.923Z"
    ∧ archiveNamePreCompact "main.jsonl" "2025-06-01T10:20:30.123Z"
      = archiveNamePreCompact "main.jsonl" "2025-06-01T10:20:30.923Z" := by
  exact ⟨by decide, rfl⟩

/-- C7 (amended): two calls to `archiveBeforeCompaction` produce distinct
archive file names exactly when their timestamps differ at second resolution
(the first 19 characters of the ISO timestamp after `:`/`.` replacement);
calls within the same second collide. -/
theorem archiveName_distinct_iff_second (sessionPath iso1 iso2 : String)
    (h : (jsTimestamp iso1).data.length = (jsTimestamp iso2).data.length) :
    (archiveNamePreCompact sessionPath iso1 = archiveNamePreCompact sessionPath iso2)
    ↔ jsTimestamp iso1 = jsTimestamp iso2 := by
  constructor
  · intro he
    unfold archiveNamePreCompact at he
    have hd := congrArg String.data he
    simp only [strData_append, List.append_assoc] at hd
    have hd2 := List.append_cancel_left (List.append_cancel_left hd)
    exact strExt (List.append_inj hd2 h).1
  · intro ht
    unfold archiveNamePreCompact
    rw [ht]

/-- Witness for C7 (amended): applied to two timestamps one second apart,
whose formatted forms have equal length. -/
theorem archiveName_distinct_iff_second_witness :
    (archiveNamePreCompact "main.jsonl" "2025-06-01T10:20:30.000Z"
      = archiveNamePreCompact "main.jsonl" "2025-06-01T10:20:31.000Z")
    ↔ jsTimestamp "2025-06-01T10:20:30.000Z" = jsTimestamp "2025-06-01T10:20:31.000Z" :=
  archiveName_distinct_iff_second "main.jsonl" _ _ (by decide)

/-- If the alive check reports a deletion, the probe reported the pid dead and
no lock was returned. -/
theorem checkAlive_deleted (lock : Js) (pid : Int) (probe : Int → KillOutcome)
    (h : (checkAlive lock pid probe).2 = true) :
    isPidAlive probe pid = false ∧ (checkAlive lock pid probe).1 = none := by
  unfold checkAlive at h ⊢
  cases halive : isPidAlive probe pid with
  | true => rw [halive] at h; simp at h
  | false => simp [halive]

/-- C8: when the ownership lock marker names a pid whose liveness probe
reports a non-`EPERM` failure (dead) and a session path resolving to the
managed session, `checkStatus` returns `none` and the stale marker file is
deleted; the liveness probe treats a successful signal and an `EPERM` failure
as alive, any other failure as dead. -/
theorem checkStatus_stale_lock_removed (resolvedSessionPath sessionStr code : String)
    (resolvePath : String → String) (probe : Int → KillOutcome)
    (lock : Js) (pid : Int)
    (hpid : lock.getField "pid" = some (Js.num pid)) (hpid0 : pid ≠ 0)
    (hsess : lock.getField "session" = some (Js.str sessionStr)) (hs0 : sessionStr ≠ "")
    (hmatch : resolvePath sessionStr = resolvedSessionPath)
    (hprobe : probe pid = KillOutcome.err code) (hcode : code ≠ "EPERM") :
    checkStatus (.parsed lock) resolvedSessionPath resolvePath probe = (TuiStatus.noneStatus, true)
    ∧ isPidAlive probe pid = false
    ∧ (∀ (probe2 : Int → KillOutcome) (p : Int), probe2 p = KillOutcome.ok →
        isPidAlive probe2 p = true)
    ∧ (∀ (probe2 : Int → KillOutcome) (p : Int), probe2 p = KillOutcome.err "EPERM" →
        isPidAlive probe2 p = true) := by
  have halive : isPidAlive probe pid = false := by
    unfold isPidAlive
    rw [hprobe]
    simpa using hcode
  refine ⟨?_, halive, ?_, ?_⟩
  · have h0 : (pid == 0) = false := by simpa using hpid0
    have hsne : (sessionStr == "") = false := by simpa using hs0
    simp [checkStatus, getActiveLock, hpid, hsess, h0, hsne, hmatch, checkAlive, halive]
  · intro probe2 p hp
    unfold isPidAlive
    rw [hp]
  · intro probe2 p hp
    unfold isPidAlive
    rw [hp]
    decide

/-- Witness for C8: a lock marker `{pid: 1, session: <managed>}` with a probe
reporting `ESRCH` (dead): `checkStatus` is `none` and the marker is deleted. -/
theorem checkStatus_stale_lock_removed_witness :
    checkStatus
      (.parsed (.obj (.cons "pid" (.num 1)
        (.cons "session" (.str "/home/pi/.pi/agent/sessions/main.jsonl") .nil))))
      "/home/pi/.pi/agent/sessions/main.jsonl" id (fun _ => .err "ESRCH")
      = (TuiStatus.noneStatus, true) :=
  (checkStatus_stale_lock_removed "/home/pi/.pi/agent/sessions/main.jsonl"
    "/home/pi/.pi/agent/sessions/main.jsonl" "ESRCH" id (fun _ => .err "ESRCH")
    (.obj (.cons "pid" (.num 1)
      (.cons "session" (.str "/home/pi/.pi/agent/sessions/main.jsonl") .nil)))
    1 rfl (by decide) rfl (by decide) rfl rfl (by decide)).1

/-- C9: `getActiveLock` returns `null` (and performs no deletion) on a missing
or unreadable lock file, on invalid JSON, on a `pid` field that is absent or
not a (finite) number, and on a session path that does not resolve to the
managed session; it never throws (the model is a total function), and the
only lock-file modification it ever performs is deleting a marker whose
recorded process is dead. -/
theorem getActiveLock_null_on_invalid (resolvedSessionPath : String)
    (resolvePath : String → String) (probe : Int → KillOutcome) :
    getActiveLock .readFailed resolvedSessionPath resolvePath probe = (none, false)
    ∧ getActiveLock .invalidJson resolvedSessionPath resolvePath probe = (none, false)
    ∧ (∀ lock : Js, lock.getField "pid" = none →
        getActiveLock (.parsed lock) resolvedSessionPath resolvePath probe = (none, false))
    ∧ (∀ lock v : Js, lock.getField "pid" = some v → (∀ n : Int, v ≠ Js.num n) →
        getActiveLock (.parsed lock) resolvedSessionPath resolvePath probe = (none, false))
    ∧ (∀ (lock : Js) (pid : Int) (s : String), lock.getField "pid" = some (Js.num pid) →
        lock.getField "session" = some (Js.str s) → s ≠ "" →
        resolvePath s ≠ resolvedSessionPath →
        getActiveLock (.parsed lock) resolvedSessionPath resolvePath probe = (none, false))
    ∧ (∀ read : LockRead, (getActiveLock read resolvedSessionPath resolvePath probe).2 = true →
        ∃ (lock : Js) (pid : Int), read = .parsed lock
          ∧ lock.getField "pid" = some (Js.num pid) ∧ pid ≠ 0
          ∧ isPidAlive probe pid = false) := by
  refine ⟨rfl, rfl, ?_, ?_, ?_, ?_⟩
  · intro lock h
    simp [getActiveLock, h]
  · intro lock v h hv
    simp only [getActiveLock, h]
    cases v with
    | num n => exact absurd rfl (hv n)
    | nullV => rfl
    | undefined => rfl
    | bool b => rfl
    | str s => rfl
    | arr xs => rfl
    | obj fs => rfl
  · intro lock pid s hp hs hs0 hmm
    simp only [getActiveLock, hp, hs]
    have hsne : (s == "") = false := by simpa using hs0
    cases hp0 : (pid == 0) with
    | true => simp
    | false => simp [hsne, hmm]
  · intro read h
    cases read with
    | readFailed => simp [getActiveLock] at h
    | invalidJson => simp [getActiveLock] at h
    | parsed lock =>
      refine ⟨lock, ?_⟩
      simp only [getActiveLock] at h
      split at h
      · rename_i pid heq
        split at h
        · simp at h
        · rename_i hp0
          have hpne : pid ≠ 0 := by simpa using hp0
          split at h
          · split at h
            · exact ⟨pid, rfl, heq, hpne, (checkAlive_deleted lock pid probe h).1⟩
            · split at h
              · simp at h
              · exact ⟨pid, rfl, heq, hpne, (checkAlive_deleted lock pid probe h).1⟩
          · split at h
            · simp at h
            · exact ⟨pid, rfl, heq, hpne, (checkAlive_deleted lock pid probe h).1⟩
          · exact ⟨pid, rfl, heq, hpne, (checkAlive_deleted lock pid probe h).1⟩
      · simp at h

/-- Witness for C9: a missing lock file and a lock whose pid is a string both
yield `null` with no deletion. -/
theorem getActiveLock_null_on_invalid_witness :
    getActiveLock .readFailed "/s/main.jsonl" id (fun _ => .ok) = (none, false)
    ∧ getActiveLock (.parsed (.obj (.cons "pid" (.str "oops") .nil)))
        "/s/main.jsonl" id (fun _ => .ok) = (none, false) :=
  ⟨(getActiveLock_null_on_invalid "/s/main.jsonl" id (fun _ => .ok)).1,
   (getActiveLock_null_on_invalid "/s/main.jsonl" id (fun _ => .ok)).2.2.2.1
     (.obj (.cons "pid" (.str "oops") .nil)) (.str "oops") rfl
     (fun _ h => Js.noConfusion h)⟩

/-- C10: the subscriber registry holds at most one subscriber per id at all
times: the empty registry has no duplicate ids and `registerClient` /
`unregisterClient` preserve id uniqueness; registering over an existing id
replaces the previous subscriber (the old `Client` value is no longer in the
registry, so it receives no further events); `unregisterClient` removes
exactly the entries with the given id and keeps every other subscriber; and a
single `broadcast` call invokes `send` at most once per registered id. -/
theorem registry_at_most_one_per_id :
    (registryIds ([] : List Client)).Nodup
    ∧ (∀ (m : List Client) (c : Client), (registryIds m).Nodup →
        (registryIds (registerClient m c)).Nodup)
    ∧ (∀ (m : List Client) (clientId : String), (registryIds m).Nodup →
        (registryIds (unregisterClient m clientId)).Nodup)
    ∧ (∀ (m : List Client) (c old : Client), (registryIds m).Nodup →
        old ∈ m → old.id = c.id → old ≠ c → old ∉ registerClient m c)
    ∧ (∀ (m : List Client) (clientId : String),
        clientId ∉ registryIds (unregisterClient m clientId)
        ∧ (∀ x ∈ m, x.id ≠ clientId → x ∈ unregisterClient m clientId)
        ∧ (∀ x ∈ unregisterClient m clientId, x ∈ m))
    ∧ (∀ (m : List Client) (ex : Option String) (i : String), (registryIds m).Nodup →
        (broadcastRun m ex).1.count i ≤ 1) := by
  refine ⟨List.nodup_nil, ?_, ?_, ?_, ?_, ?_⟩
  · intro m c hm
    cases hex : m.any (fun x => x.id == c.id) with
    | true => rw [registryIds_registerClient_existing m c hex]; exact hm
    | false =>
      have hids : registryIds (registerClient m c) = registryIds m ++ [c.id] := by
        unfold registerClient registryIds
        rw [if_neg (by simp [hex])]
        simp
      rw [hids]
      have hni : c.id ∉ registryIds m := by
        intro hmem
        obtain ⟨x, hx, hid⟩ := List.mem_map.mp hmem
        have hfalse : ∀ x ∈ m, ¬(x.id == c.id) = true := by
          simpa [List.any_eq_true] using hex
        exact hfalse x hx (by simpa using hid)
      simp [List.nodup_append, hm, hni]
  · intro m clientId hm
    exact List.Nodup.sublist (List.Sublist.map _ (List.filter_sublist _)) hm
  · intro m c old hm hold hid hne
    cases hex : m.any (fun x => x.id == c.id) with
    | false =>
      exfalso
      have hfalse : ∀ x ∈ m, ¬(x.id == c.id) = true := by
        simpa [List.any_eq_true] using hex
      exact hfalse old hold (by simpa using hid)
    | true =>
      unfold registerClient
      rw [if_pos hex]
      intro hmem
      obtain ⟨x, hx, hxe⟩ := List.mem_map.mp hmem
      by_cases hxc : x.id = c.id
      · rw [if_pos (by simpa using hxc)] at hxe
        exact hne hxe.symm
      · rw [if_neg (by simpa using hxc)] at hxe
        exact hxc (hxe ▸ hid)
  · intro m clientId
    refine ⟨?_, ?_, ?_⟩
    · intro hmem
      obtain ⟨x, hx, hxe⟩ := List.mem_map.mp hmem
      have hcond := (List.mem_filter.mp hx).2
      rw [hxe] at hcond
      simp at hcond
    · intro x hx hne
      exact List.mem_filter.mpr ⟨hx, by simpa using hne⟩
    · intro x hx
      exact (List.mem_filter.mp hx).1
  · intro m ex i hm
    have hnd : (broadcastRun m ex).1.Nodup :=
      List.Nodup.sublist (broadcastRun_sublist m ex) hm
    exact List.nodup_iff_count_le_one.mp hnd i

/-- Witness for C10: replacing the subscriber under id "a" keeps ids unique,
evicts the old subscriber object, and a broadcast over a two-client registry
sends at most once to "a". -/
theorem registry_at_most_one_per_id_witness :
    (registryIds (registerClient [{ id := "a", available := true, send := .retUnit }]
        { id := "a", available := false, send := .rejectP })).Nodup
    ∧ ({ id := "a", available := true, send := .retUnit } : Client)
        ∉ registerClient [{ id := "a", available := true, send := .retUnit }]
            { id := "a", available := false, send := .rejectP }
    ∧ (broadcastRun [{ id := "a", available := true, send := .retUnit },
        { id := "b", available := true, send := .retUnit }] none).1.count "a" ≤ 1 :=
  ⟨registry_at_most_one_per_id.2.1 _ _ (by decide),
   registry_at_most_one_per_id.2.2.2.1 _ _ _ (by decide) (by decide) (by decide) (by decide),
   registry_at_most_one_per_id.2.2.2.2.2 _ none "a" (by decide)⟩

end PiAssistant
